import Mathlib

/-!
Shallow embedding of the SnApper core (plugin runtime for a multi-app
workspace platform) and verification of its specification claims.

The embedding covers the lifecycle state machine (`src/snapper/core/lifecycle.ts`,
class `SnAppLifecycle`), the manifest registry (`SnAppRegistry`), the hook
router (`HookService`), the message bus (`MessageBusService`), the file state
store (`FileStateService`), and the per-app API facade (`SnAppApiImpl`).

JavaScript specifics are modelled explicitly:
- exceptions become `Except`;
- `Date.now()` / `new Date()` become explicit `Nat` timestamps passed in at
  each sampling point, assumed monotone where a theorem needs it;
- optional / falsy fields become `Option` with an explicit falsiness test
  (`undefined` and the empty string are both falsy);
- opaque user callbacks (loaders, factories, lifecycle callbacks, bus and
  hook handlers) are modelled by the observable outcome of invoking them
  (`Except Err Unit`, or a `throws` flag), since the core only branches on
  whether they throw.
-/

namespace Snapper

/-! ## Lifecycle state machine (`SnAppLifecycle`) -/

/-- The nine lifecycle states of a SnApp (`SnAppState` in `types.ts`). -/
inductive SnAppState where
  | registered
  | loading
  | loaded
  | activating
  | active
  | suspending
  | suspended
  | unloading
  | error
deriving DecidableEq, Repr

/-- Errors thrown by the lifecycle driver and by user callbacks.
`user n` stands for an arbitrary exception thrown by app code (loader,
factory, or a lifecycle callback); `lifecycle src tgt` is the
`LifecycleError(from, to)` thrown by `transition`; `precondition op st` is
the plain `Error` thrown by `load`/`activate` when the operation's
precondition is violated. -/
inductive Err where
  | user (n : Nat)
  | lifecycle (src tgt : SnAppState)
  | precondition (op : String) (st : SnAppState)
deriving DecidableEq, Repr

instance exceptDecEq {ε α : Type} [DecidableEq ε] [DecidableEq α] :
    DecidableEq (Except ε α) := fun x y =>
  match x, y with
  | .ok a, .ok b => decidable_of_iff (a = b) (by simp)
  | .error a, .error b => decidable_of_iff (a = b) (by simp)
  | .ok _, .error _ => .isFalse (fun h => Except.noConfusion h)
  | .error _, .ok _ => .isFalse (fun h => Except.noConfusion h)

/-- An app instance record as returned by the app factory: each of the three
optional callbacks is modelled by the outcome of invoking it
(`none` = callback absent, `some r` = callback present with result `r`). -/
structure SnAppInstance where
  onActivate : Option (Except Err Unit)
  onSuspend : Option (Except Err Unit)
  onDestroy : Option (Except Err Unit)
deriving DecidableEq, Repr

/-- The mutable per-app record the lifecycle driver operates on
(the `state`, `stateChangedAt`, `error` and `instance` fields of `SnApp`). -/
structure SnApp where
  state : SnAppState
  stateChangedAt : Nat
  err : Option Err
  inst : Option SnAppInstance
deriving DecidableEq, Repr

/-- `SnAppLifecycle.validTransitions`: for each state, the list of states it
may transition to (transcribed from the source table). -/
def validTransitions : SnAppState → List SnAppState
  | .registered => [.loading]
  | .loading => [.loaded, .error]
  | .loaded => [.activating, .unloading]
  | .activating => [.active, .error]
  | .active => [.suspending, .unloading]
  | .suspending => [.suspended, .error]
  | .suspended => [.activating, .unloading]
  | .unloading => [.registered, .error]
  | .error => [.unloading]

/-- `SnAppLifecycle.canTransition`: a transition is valid when source and
target coincide (no-op) or the target is listed for the source. -/
def canTransition (src tgt : SnAppState) : Bool :=
  src = tgt || (validTransitions src).contains tgt

/-- The valid-transition table exactly as the specification section 4.2
words it: the nine listed arrows plus `x → x` as a no-op for any state.
This is the spec-side definition used to check `canTransition` against. -/
def specTableAllows (src tgt : SnAppState) : Bool :=
  src = tgt ||
    [(SnAppState.registered, SnAppState.loading),
     (SnAppState.loading, SnAppState.loaded),
     (SnAppState.loading, SnAppState.error),
     (SnAppState.loaded, SnAppState.activating),
     (SnAppState.loaded, SnAppState.unloading),
     (SnAppState.activating, SnAppState.active),
     (SnAppState.activating, SnAppState.error),
     (SnAppState.active, SnAppState.suspending),
     (SnAppState.active, SnAppState.unloading),
     (SnAppState.suspending, SnAppState.suspended),
     (SnAppState.suspending, SnAppState.error),
     (SnAppState.suspended, SnAppState.activating),
     (SnAppState.suspended, SnAppState.unloading),
     (SnAppState.unloading, SnAppState.registered),
     (SnAppState.unloading, SnAppState.error),
     (SnAppState.error, SnAppState.unloading)].contains (src, tgt)

/-- `SnAppLifecycle.transition`: no-op when already in the target state;
otherwise either mutates `state` and `stateChangedAt` (to the current time
`now`) or throws `LifecycleError(from, to)`.  Besides the updated app it
returns the list of values assigned to `state` (the trace used to audit
which state changes ever occur). -/
def transition (snapp : SnApp) (tgt : SnAppState) (now : Nat) :
    Except Err (SnApp × List SnAppState) :=
  if snapp.state = tgt then .ok (snapp, [])
  else if canTransition snapp.state tgt then
    .ok ({ snapp with state := tgt, stateChangedAt := now }, [tgt])
  else .error (.lifecycle snapp.state tgt)

/-- Result of one lifecycle driver operation: the app record after the call,
the trace of values assigned to its `state` field (in order), and the
returned value or thrown error. -/
structure OpResult (ρ : Type) where
  snapp : SnApp
  trace : List SnAppState
  result : Except Err ρ
deriving DecidableEq, Repr

/-- `SnAppLifecycle.load`: requires `state == registered`; transitions to
`loading`, runs the loader (modelled by its outcome), then transitions to
`loaded`.  A throw inside the `try` sets `state = 'error'` directly, records
the error, and re-raises. -/
def load (snapp : SnApp) (loader : Except Err Unit) (t1 t2 : Nat) :
    OpResult Unit :=
  if snapp.state ≠ .registered then
    ⟨snapp, [], .error (.precondition "load" snapp.state)⟩
  else
    match transition snapp .loading t1 with
    | .error e => ⟨snapp, [], .error e⟩
    | .ok (s1, tr1) =>
      match loader with
      | .ok _ =>
        match transition s1 .loaded t2 with
        | .ok (s2, tr2) => ⟨s2, tr1 ++ tr2, .ok ()⟩
        | .error e =>
          ⟨{ s1 with state := .error, err := some e }, tr1 ++ [.error], .error e⟩
      | .error e =>
        ⟨{ s1 with state := .error, err := some e }, tr1 ++ [.error], .error e⟩

/-- `SnAppLifecycle.activate`: requires `state ∈ {loaded, suspended}`;
transitions to `activating`, obtains an instance via the factory, stores it,
runs `onActivate` when present, then transitions to `active`.  Any throw in
the `try` block sets `state = 'error'`, records the error, and re-raises
(a failed factory leaves `instance` unset; a failed `onActivate` leaves the
just-stored instance in place). -/
def activate (snapp : SnApp) (factory : Except Err SnAppInstance) (t1 t2 : Nat) :
    OpResult Unit :=
  if snapp.state ≠ .loaded ∧ snapp.state ≠ .suspended then
    ⟨snapp, [], .error (.precondition "activate" snapp.state)⟩
  else
    match transition snapp .activating t1 with
    | .error e => ⟨snapp, [], .error e⟩
    | .ok (s1, tr1) =>
      match factory with
      | .error e =>
        ⟨{ s1 with state := .error, err := some e }, tr1 ++ [.error], .error e⟩
      | .ok i =>
        let s2 := { s1 with inst := some i }
        match i.onActivate with
        | some (.error e) =>
          ⟨{ s2 with state := .error, err := some e }, tr1 ++ [.error], .error e⟩
        | _ =>
          match transition s2 .active t2 with
          | .ok (s3, tr3) => ⟨s3, tr1 ++ tr3, .ok ()⟩
          | .error e =>
            ⟨{ s2 with state := .error, err := some e }, tr1 ++ [.error], .error e⟩

/-- `SnAppLifecycle.suspend`: returns `false` without mutating when
`state != active`; otherwise transitions to `suspending`, runs `onSuspend`
when an instance with that callback is present, transitions to `suspended`
and returns `true`.  A throw in the `try` sets `state = 'error'` and
re-raises. -/
def suspend (snapp : SnApp) (t1 t2 : Nat) : OpResult Bool :=
  if snapp.state ≠ .active then
    ⟨snapp, [], .ok false⟩
  else
    match transition snapp .suspending t1 with
    | .error e => ⟨snapp, [], .error e⟩
    | .ok (s1, tr1) =>
      match s1.inst.bind (·.onSuspend) with
      | some (.error e) =>
        ⟨{ s1 with state := .error, err := some e }, tr1 ++ [.error], .error e⟩
      | _ =>
        match transition s1 .suspended t2 with
        | .ok (s2, tr2) => ⟨s2, tr1 ++ tr2, .ok true⟩
        | .error e =>
          ⟨{ s1 with state := .error, err := some e }, tr1 ++ [.error], .error e⟩

/-- `SnAppLifecycle.unload`: returns `false` when `state == registered`;
otherwise transitions to `unloading` (this may throw `LifecycleError` and
is outside the `try`), runs `onDestroy` when present, clears `instance` and
`error`, transitions back to `registered` and returns `true`.  A throw in
the `try` sets `state = 'error'` and re-raises. -/
def unload (snapp : SnApp) (t1 t2 : Nat) : OpResult Bool :=
  if snapp.state = .registered then
    ⟨snapp, [], .ok false⟩
  else
    match transition snapp .unloading t1 with
    | .error e => ⟨snapp, [], .error e⟩
    | .ok (s1, tr1) =>
      match s1.inst.bind (·.onDestroy) with
      | some (.error e) =>
        ⟨{ s1 with state := .error, err := some e }, tr1 ++ [.error], .error e⟩
      | _ =>
        let s2 := { s1 with inst := none, err := none }
        match transition s2 .registered t2 with
        | .ok (s3, tr3) => ⟨s3, tr1 ++ tr3, .ok true⟩
        | .error e =>
          ⟨{ s2 with state := .error, err := some e }, tr1 ++ [.error], .error e⟩

/-- Every consecutive pair of states in `st :: tr` is permitted by
`canTransition` (used to audit the state assignments of an operation). -/
def TraceValid (st : SnAppState) (tr : List SnAppState) : Prop :=
  List.Chain (fun a b => canTransition a b = true) st tr

/-! ## Registry (`SnAppRegistry`) -/

/-- JavaScript falsiness of an optional string field: `undefined` and the
empty string are falsy (`!manifest.field`). -/
def falsyStr (s : Option String) : Bool :=
  s.getD "" = ""

/-- The JSON value found in the `permissions` field: either an array of
permission tags or some other truthy value (a truthy non-array).  A falsy
non-array value behaves exactly like an absent field under `!permissions`
and is modelled by `none`. -/
inductive PermField where
  | arr (perms : List String)
  | truthyNonArray
deriving DecidableEq, Repr

/-- The `openclaw` sub-object of a manifest. -/
structure OpenClawField where
  minVersion : Option String
deriving DecidableEq, Repr

/-- A parsed `snap.json` manifest as far as validation inspects it.
Absent fields are `none`. -/
structure Manifest where
  id : Option String
  name : Option String
  entry : Option String
  shortName : Option String
  version : Option String
  permissions : Option PermField
  openclaw : Option OpenClawField
deriving DecidableEq, Repr

/-- One character of the kebab-case id alphabet `[a-z0-9]`. -/
def isKebabChar (c : Char) : Bool :=
  (Char.ofNat 97 ≤ c && c ≤ Char.ofNat 122) || c.isDigit

/-- Recognizer for `[a-z0-9]+(-[a-z0-9]+)*`: `inGroup` records whether at
least one `[a-z0-9]` character of the current group has been consumed.  A
hyphen closes a non-empty group and opens a new one; the string must end
inside a non-empty group. -/
def kebabRun : List Char → Bool → Bool
  | [], inGroup => inGroup
  | c :: rest, inGroup =>
    if c = '-' then inGroup && kebabRun rest false
    else isKebabChar c && kebabRun rest true

/-- The id regex `^[a-z0-9]+(-[a-z0-9]+)*$`. -/
def kebabOk (s : String) : Bool :=
  kebabRun s.toList false

/-- The version regex `^\d+\.\d+\.\d+` (unanchored at the end): one or more
digits, a dot, digits, a dot, digits, then anything. -/
def semverStart (s : String) : Bool :=
  let p1 := s.toList
  let d1 := p1.takeWhile Char.isDigit
  let r1 := p1.dropWhile Char.isDigit
  d1 ≠ [] &&
    match r1 with
    | '.' :: p2 =>
      let d2 := p2.takeWhile Char.isDigit
      let r2 := p2.dropWhile Char.isDigit
      d2 ≠ [] &&
        match r2 with
        | '.' :: p3 => p3.takeWhile Char.isDigit ≠ []
        | _ => false
    | _ => false

/-- The closed set of permission tags. -/
def validPermissions : List String :=
  ["storage:read", "storage:write", "storage:delete",
   "session:hook", "prompt:inject",
   "ui:tab", "ui:panel", "ui:modal", "ui:toast",
   "command:register",
   "tool:register", "tool:wrap",
   "fs:read", "fs:write",
   "bus:publish", "bus:subscribe",
   "system:exec", "network:request"]

/-- Errors thrown by `SnAppRegistry.register` / `validateManifest`. -/
inductive RegError where
  | duplicateId (id : String)
  | missingField (field : String)
  | invalidId (id : String)
  | invalidVersion (v : String)
  | permissionsNotArray
  | missingMinVersion
deriving DecidableEq, Repr

/-- `options.version && !regex.test(version)`: the version check fires only
when the field is truthy (present and non-empty) and fails the regex. -/
def versionCheckFails (v : Option String) : Bool :=
  match v with
  | none => false
  | some s => s ≠ "" && !semverStart s

/-- Whether `permissions` is missing/falsy (`!manifest.permissions`). -/
def permsFalsy (p : Option PermField) : Bool :=
  p.isNone

/-- Whether `permissions` fails the `Array.isArray` check. -/
def permsNotArray (p : Option PermField) : Bool :=
  match p with
  | some (.arr _) => false
  | _ => true

/-- `SnAppRegistry.validateManifest`, checks in source order; on success the
collected `console.warn` messages (long `shortName`, unknown permission
tags) are returned, showing they never cause rejection. -/
def validateManifest (m : Manifest) : Except RegError (List String) :=
  if falsyStr m.id then .error (.missingField "id")
  else if falsyStr m.name then .error (.missingField "name")
  else if falsyStr m.entry then .error (.missingField "entry")
  else if permsFalsy m.permissions then .error (.missingField "permissions")
  else if m.openclaw.isNone then .error (.missingField "openclaw")
  else if !kebabOk (m.id.getD "") then .error (.invalidId (m.id.getD ""))
  else if versionCheckFails m.version then .error (.invalidVersion (m.version.getD ""))
  else
    let shortNameWarns :=
      match m.shortName with
      | some sn => if sn.length > 5 then ["long shortName"] else []
      | none => []
    if permsNotArray m.permissions then .error .permissionsNotArray
    else
      let permWarns :=
        match m.permissions with
        | some (.arr ps) =>
          (ps.filter (fun p => !validPermissions.contains p)).map
            (fun p => "unknown permission: " ++ p)
        | _ => []
      if falsyStr ((m.openclaw.getD ⟨none⟩).minVersion) then .error .missingMinVersion
      else .ok (shortNameWarns ++ permWarns)

/-- One catalog entry (`SnApp` as created by `register`). -/
structure RegEntry where
  manifest : Manifest
  state : SnAppState
  registeredAt : Nat
  stateChangedAt : Nat
deriving DecidableEq, Repr

/-- The registry catalog: an insertion-ordered association list keyed by id
(`Map<string, SnApp>`). -/
abbrev Registry := List (String × RegEntry)

/-- Whether a fallible computation threw. -/
def isErr : Except ε α → Bool
  | .error _ => true
  | .ok _ => false

/-- `SnAppRegistry.register`: rejects a duplicate id (`has(manifest.id)` is
false for an absent id, since only truthy ids are ever catalogued),
validates the manifest, then appends a fresh entry with
`state = registered` and `registeredAt = stateChangedAt = now`. -/
def registerApp (reg : Registry) (m : Manifest) (now : Nat) :
    Except RegError Registry :=
  if m.id.isSome && (reg.lookup (m.id.getD "")).isSome then
    .error (.duplicateId (m.id.getD ""))
  else
    match validateManifest m with
    | .error e => .error e
    | .ok _ => .ok (reg ++ [(m.id.getD "", ⟨m, .registered, now, now⟩)])

/-- The section 4.1 validation rules as the (amended) claim words them, one
disjunct per rule: a required field missing (or empty, per JS falsiness),
an id failing the kebab-case regex, a non-empty version not starting with
`digits.digits.digits`, or a `permissions` value that is not a sequence.
This is the spec-side predicate `registerApp` is checked against. -/
def ruleViolated (m : Manifest) : Bool :=
  falsyStr m.id || falsyStr m.name || falsyStr m.entry ||
  permsFalsy m.permissions || m.openclaw.isNone ||
  !kebabOk (m.id.getD "") || versionCheckFails m.version ||
  permsNotArray m.permissions ||
  falsyStr ((m.openclaw.getD ⟨none⟩).minVersion)

/-! ## Hook router (`HookService`)

A handler entry is modelled by its stable id, its priority, and the
observable behaviour of the two functions attached to it: `filterPass p`
tells whether `filter(payload)` returns true on payload `p`, and
`throwsOn p` whether invoking the handler on `p` throws (a rejected
awaited promise counts as a throw; both are caught by the same `catch`). -/

/-- One entry of the router's per-event handler list. -/
structure HookHandler (π : Type) where
  hid : Nat
  priority : Int
  filterPass : π → Bool
  throwsOn : π → Bool

/-- Insert an entry into a list that is already sorted by descending
priority, placing it after every entry of priority `≥` its own.  This is
what `eventHandlers.push(entry)` followed by the stable
`sort((a, b) => b.options.priority - a.options.priority)` does to a list
that previous `on` calls left sorted: the stable sort keeps all existing
entries (of priority `≥` the new one) ahead of the appended entry and moves
it ahead of the strictly-smaller ones only. -/
def insertByPriority (h : HookHandler π) : List (HookHandler π) → List (HookHandler π)
  | [] => [h]
  | y :: ys =>
    if y.priority ≥ h.priority then y :: insertByPriority h ys
    else h :: y :: ys

/-- `HookService.on` restricted to the handler list of one event: append the
new entry and re-sort by descending priority (stable). -/
def hookOn (hs : List (HookHandler π)) (h : HookHandler π) : List (HookHandler π) :=
  insertByPriority h hs

/-- Register handlers with the given priorities in order via `hookOn`,
handing out fresh stable ids from `nextId` upward (mirroring
`handler_${++this.handlerIdCounter}`); each handler accepts every payload
and never throws. -/
def registerAllFrom (nextId : Nat) : List Int → List (HookHandler π) → List (HookHandler π)
  | [], hs => hs
  | p :: ps, hs =>
    registerAllFrom (nextId + 1) ps (hookOn hs ⟨nextId, p, fun _ => true, fun _ => false⟩)

/-- Register a list of handlers in priority order on a fresh service; the
`i`-th registration receives id `i + 1`, so ids reflect insertion order. -/
def registerAll (ps : List Int) : List (HookHandler π) :=
  registerAllFrom 1 ps []

/-- The ordering C9 asserts on a handler list: strictly higher priority
first, and among equal priorities the smaller (earlier-registered) id
first. -/
def HookLex (a b : HookHandler π) : Prop :=
  a.priority > b.priority ∨ (a.priority = b.priority ∧ a.hid < b.hid)

/-- `HookService.emit` on one event's handler list: walk the list in order;
skip entries whose filter rejects the payload; invoke the rest, catching any
throw and continuing.  Returns the ids invoked (in invocation order) and the
ids whose invocation threw and was logged via `console.error`.  The outer
`Except` mirrors the possibility of `emit` itself throwing: the per-handler
`catch` means it never does. -/
def emitHooks (hs : List (HookHandler π)) (payload : π) :
    Except Err (List Nat × List Nat) :=
  match hs with
  | [] => .ok ([], [])
  | h :: rest =>
    if !h.filterPass payload then emitHooks rest payload
    else
      match emitHooks rest payload with
      | .ok (inv, logged) =>
        .ok (h.hid :: inv, if h.throwsOn payload then h.hid :: logged else logged)
      | .error e => .error e

/-! ## Message bus (`MessageBusService`) -/

/-- One pub/sub subscription record: stable id, subscriber name, the
`once` flag, and whether its handler throws when invoked. -/
structure Subscription where
  hid : Nat
  subscriber : String
  once : Bool
  throws : Bool
deriving DecidableEq, Repr

/-- `Array.prototype.splice(i, 1)`: remove the element at index `i`. -/
def spliceAt (l : List α) (i : Nat) : List α :=
  l.take i ++ l.drop (i + 1)

/-- The `subscriptions.forEach((sub, index) => ...)` body of `publish`,
starting at index `i`: each handler is invoked (its id appended to the
first component); a throw is caught and logged (second component) — note
the `toRemove.push(index)` sits after the handler call inside the `try`,
so a one-shot subscription whose handler throws is NOT collected for
removal; indices of one-shot subscriptions whose handler returned are
collected in ascending order (third component). -/
def runSubs : List Subscription → Nat → List Nat × List Nat × List Nat
  | [], _ => ([], [], [])
  | s :: rest, i =>
    let (inv, logged, toRemove) := runSubs rest (i + 1)
    if s.throws then (s.hid :: inv, s.hid :: logged, toRemove)
    else if s.once then (s.hid :: inv, logged, i :: toRemove)
    else (s.hid :: inv, logged, toRemove)

/-- `MessageBusService.publish` on one channel's subscription list: run the
iteration, then splice out the collected one-shot indices in reverse
(descending) order so earlier indices stay valid.  Returns the updated
list, the invoked ids in order, and the ids whose handler threw. -/
def publishChannel (subs : List Subscription) :
    List Subscription × List Nat × List Nat :=
  let (invoked, logged, toRemove) := runSubs subs 0
  let subs' := toRemove.reverse.foldl spliceAt subs
  (subs', invoked, logged)

/-- Errors with which an RPC deferred can be rejected.  `unknownMethod` is
the error kind named by the specification's section 4.4; the service itself
only ever constructs the `Request timeout: target.method` error. -/
inductive RpcError where
  | requestTimeout (target method : String)
  | unknownMethod (target method : String)
deriving DecidableEq, Repr

/-- How the deferred returned by `request` settles, and after how many
milliseconds. -/
structure Settlement where
  outcome : Except RpcError Unit
  afterMs : Nat
deriving DecidableEq, Repr

/-- The bus state: channel name → subscription list, and the RPC method
registry `appId → registered method names` (`registerMethod` stores the
handler there; only membership matters because no bus code path ever
invokes a registered handler). -/
structure BusState where
  channels : List (String × List Subscription)
  methods : List (String × List String)
deriving DecidableEq, Repr

/-- A bus with no subscriptions and no registered methods. -/
def emptyBus : BusState := ⟨[], []⟩

/-- Replace the binding of `k` in an association list (append when new). -/
def setAssoc (l : List (String × β)) (k : String) (v : β) : List (String × β) :=
  if (l.lookup k).isSome then
    l.map (fun kv => if kv.1 = k then (k, v) else kv)
  else l ++ [(k, v)]

/-- `MessageBusService.publish` at the bus level. -/
def publishBus (bus : BusState) (channel : String) :
    BusState × List Nat × List Nat :=
  let subs := (bus.channels.lookup channel).getD []
  let (subs', invoked, logged) := publishChannel subs
  ({ bus with channels := setAssoc bus.channels channel subs' }, invoked, logged)

/-- `MessageBusService.subscribe`: append a `once := false` record. -/
def subscribeBus (bus : BusState) (channel : String) (s : Subscription) : BusState :=
  let subs := (bus.channels.lookup channel).getD []
  { bus with channels := setAssoc bus.channels channel (subs ++ [{ s with once := false }]) }

/-- `MessageBusService.subscribeOnce`: append a `once := true` record. -/
def subscribeOnceBus (bus : BusState) (channel : String) (s : Subscription) : BusState :=
  let subs := (bus.channels.lookup channel).getD []
  { bus with channels := setAssoc bus.channels channel (subs ++ [{ s with once := true }]) }

/-- `MessageBusService.registerMethod`: record the method name under the
app id (the handler itself is never invoked by any bus code path). -/
def registerMethod (bus : BusState) (appId method : String) : BusState :=
  let ms := (bus.methods.lookup appId).getD []
  { bus with methods := setAssoc bus.methods appId (ms ++ [method]) }

/-- Whether a handler is registered under `(appId, method)`. -/
def hasMethod (bus : BusState) (appId method : String) : Bool :=
  ((bus.methods.lookup appId).getD []).contains method

/-- `MessageBusService.request`: generate a request id, arm a timer that
rejects the deferred with the `Request timeout: target.method` error after
`timeoutMs`, store the resolver, and publish the request envelope on the
reserved channel `rpc:<target>:<method>`.  No code path of the service ever
resolves or rejects the stored deferred other than that timer (registered
method handlers are never invoked by the bus, and the resolver map is
private), so absent external interference the settlement is the timer's
rejection.  The method registry is never consulted. -/
def request (bus : BusState) (target method : String) (timeoutMs : Nat) :
    BusState × Settlement :=
  let chan := "rpc:" ++ target ++ ":" ++ method
  let (bus', _, _) := publishBus bus chan
  (bus', ⟨.error (.requestTimeout target method), timeoutMs⟩)

/-! ## State store (`FileStateService`, the enhanced service)

Timestamps are epoch milliseconds passed explicitly where the source calls
`Date.now()`.  Disk files are modelled at the granularity the claims need:
a file is `(base name, extension, parsed entry)`; JSON serialization and the
user-supplied encrypt/decrypt pair (modelled as a round-tripping identity on
the stored entry) are claim-neutral and not spelled out. -/

/-- A state entry as written to memory and disk. -/
structure StateEntry (α : Type) where
  value : α
  createdAt : Nat
  expiresAt : Option Nat
  encrypted : Bool
  version : Nat
deriving DecidableEq, Repr

/-- The two extensions a state file can carry. -/
inductive FileExt where
  | json
  | enc
deriving DecidableEq, Repr

/-- One file in a namespace directory. -/
structure DiskFile (α : Type) where
  base : String
  ext : FileExt
  entry : StateEntry α
deriving DecidableEq, Repr

/-- Options of `persist` (the enhanced service's `PersistOptions`; the
`sync` flag only fires change events and is omitted). -/
structure PersistOpts where
  namespace? : Option String
  ttl : Option Nat
  encrypted : Option Bool
deriving DecidableEq, Repr

/-- The store: per-namespace in-memory mirror, per-directory disk files,
and whether an encrypt/decrypt pair was configured. -/
structure FileState (α : Type) where
  memory : List (String × List (String × StateEntry α))
  disk : List (String × List (DiskFile α))
  hasCrypto : Bool
deriving DecidableEq, Repr

/-- A store with nothing persisted. -/
def emptyStore (α : Type) : FileState α := ⟨[], [], false⟩

/-- One character kept verbatim by `sanitizePath`: `[a-zA-Z0-9_-]`. -/
def sanitizeKeeps (c : Char) : Bool :=
  ('a' ≤ c && c ≤ 'z') || ('A' ≤ c && c ≤ 'Z') || c.isDigit || c = '_' || c = '-'

/-- `sanitizePath`: replace every character outside `[a-zA-Z0-9_-]`
with `_`. -/
def sanitize (s : String) : String :=
  ⟨s.toList.map (fun c => if sanitizeKeeps c then c else '_')⟩

/-- Remove a key from an association list. -/
def delAssoc (l : List (String × β)) (k : String) : List (String × β) :=
  l.filter (fun kv => kv.1 ≠ k)

/-- Memory-mirror lookup for `(namespace, key)`. -/
def memLookup (mem : List (String × List (String × StateEntry α)))
    (ns k : String) : Option (StateEntry α) :=
  (mem.lookup ns).bind (·.lookup k)

/-- Memory-mirror insert for `(namespace, key)` (creating the namespace map
when absent, as the `if (!this.memory.has(ns))` guard does). -/
def memInsert (mem : List (String × List (String × StateEntry α)))
    (ns k : String) (e : StateEntry α) :
    List (String × List (String × StateEntry α)) :=
  setAssoc mem ns (setAssoc ((mem.lookup ns).getD []) k e)

/-- Write a file, replacing an existing file of the same base and
extension. -/
def writeFile (files : List (DiskFile α)) (b : String) (e : FileExt)
    (ent : StateEntry α) : List (DiskFile α) :=
  if files.any (fun f => f.base = b && f.ext = e) then
    files.map (fun f => if f.base = b && f.ext = e then ⟨b, e, ent⟩ else f)
  else files ++ [⟨b, e, ent⟩]

/-- `fs.unlink`, ignoring a missing file. -/
def deleteFile (files : List (DiskFile α)) (b : String) (e : FileExt) :
    List (DiskFile α) :=
  files.filter (fun f => !(f.base = b && f.ext = e))

/-- `loadFromDisk` within one directory: probe `<base>.enc` first, then
`<base>.json`. -/
def loadFile (files : List (DiskFile α)) (b : String) : Option (StateEntry α) :=
  match files.find? (fun f => f.base = b && f.ext = .enc) with
  | some f => some f.entry
  | none => (files.find? (fun f => f.base = b && f.ext = .json)).map (·.entry)

/-- `isExpired` evaluated when `Date.now()` returns `now`: an entry without
`expiresAt` never expires; otherwise expired iff `now > expiresAt`. -/
def isExpiredAt (now : Nat) (e : StateEntry α) : Bool :=
  match e.expiresAt with
  | none => false
  | some t => now > t

/-- `FileStateService.persist` at time `now`: build the entry
(`expiresAt = now + ttl` only when `ttl` is truthy, i.e. given and
non-zero), store it in the memory mirror, and write the file
(`<sanitize ns>/<sanitize key>.enc` when the entry is encrypted and a
crypto hook is configured, `.json` otherwise). -/
def persist (st : FileState α) (snappId key : String) (v : α)
    (opts : PersistOpts) (now : Nat) : FileState α :=
  let ns := opts.namespace?.getD snappId
  let entry : StateEntry α :=
    { value := v
      createdAt := now
      expiresAt := match opts.ttl with
        | some t => if t = 0 then none else some (now + t)
        | none => none
      encrypted := opts.encrypted.getD false
      version := 1 }
  let dir := sanitize ns
  let files := (st.disk.lookup dir).getD []
  let ext := if entry.encrypted && st.hasCrypto then FileExt.enc else FileExt.json
  { st with
    memory := memInsert st.memory ns key entry
    disk := setAssoc st.disk dir (writeFile files (sanitize key) ext entry) }

/-- `FileStateService.remove`: drop the memory entry and unlink both
possible files. -/
def removeKey (st : FileState α) (snappId key : String)
    (namespace? : Option String) : FileState α :=
  let ns := namespace?.getD snappId
  let dir := sanitize ns
  let files := (st.disk.lookup dir).getD []
  let files' := deleteFile (deleteFile files (sanitize key) .json) (sanitize key) .enc
  { st with
    memory := setAssoc st.memory ns (delAssoc ((st.memory.lookup ns).getD []) key)
    disk := setAssoc st.disk dir files' }

/-- `FileStateService.restore` at time `now`: memory mirror first (an
expired memory entry is removed and the default returned); else load the
file (absent file → default), remove-and-default when expired, otherwise
cache in memory and return the value. -/
def restore (st : FileState α) (snappId key : String) (defaultValue : Option α)
    (namespace? : Option String) (now : Nat) : FileState α × Option α :=
  let ns := namespace?.getD snappId
  match memLookup st.memory ns key with
  | some e =>
    if isExpiredAt now e then (removeKey st snappId key (some ns), defaultValue)
    else (st, some e.value)
  | none =>
    match loadFile ((st.disk.lookup (sanitize ns)).getD []) (sanitize key) with
    | none => (st, defaultValue)
    | some e =>
      if isExpiredAt now e then (removeKey st snappId key (some ns), defaultValue)
      else ({ st with memory := memInsert st.memory ns key e }, some e.value)

/-- The loop body of `listKeys`: strip the extension (a file's `base`),
load the entry only to evaluate expiration, and keep the key when a
non-expired entry loads. -/
def listStep (files : List (DiskFile α)) (now : Nat)
    (acc : List String) (f : DiskFile α) : List String :=
  match loadFile files (sanitize f.base) with
  | some e => if !isExpiredAt now e then acc ++ [f.base] else acc
  | none => acc

/-- `FileStateService.listKeys` at time `now`: enumerate the namespace
directory (missing directory → empty list) and fold the loop body over it
in directory order. -/
def listKeys (st : FileState α) (snappId : String)
    (namespace? : Option String) (now : Nat) : List String :=
  match st.disk.lookup (sanitize (namespace?.getD snappId)) with
  | none => []
  | some files => files.foldl (listStep files now) []

/-! ## API facade (`SnAppApiImpl`)

Only the storage surface is needed by the claims; each operation checks its
permission tag via `requirePermission` and then delegates to the state
store. -/

/-- The error thrown by the facade's private permission check:
`Permission denied: <tag>`. -/
inductive ApiError where
  | permissionDenied (tag : String)
deriving DecidableEq, Repr

/-- `SnAppApiImpl.hasPermission`: membership in the granted set. -/
def hasPermission (perms : List String) (tag : String) : Bool :=
  perms.contains tag

/-- `SnAppApiImpl.requirePermission`: throw `PermissionDenied(tag)` when the
tag was not granted. -/
def requirePermission (perms : List String) (tag : String) : Except ApiError Unit :=
  if hasPermission perms tag then .ok () else .error (.permissionDenied tag)

/-- `SnAppApiImpl.persist`: gated by `storage:write`, then delegates to the
store under the app's id. -/
def apiPersist (perms : List String) (st : FileState α) (appId key : String)
    (v : α) (opts : PersistOpts) (now : Nat) : Except ApiError (FileState α) := do
  let _ ← requirePermission perms "storage:write"
  .ok (persist st appId key v opts now)

/-- `SnAppApiImpl.restore`: gated by `storage:read`. -/
def apiRestore (perms : List String) (st : FileState α) (appId key : String)
    (defaultValue : Option α) (now : Nat) :
    Except ApiError (FileState α × Option α) := do
  let _ ← requirePermission perms "storage:read"
  .ok (restore st appId key defaultValue none now)

/-- `SnAppApiImpl.remove`: gated by `storage:delete`. -/
def apiRemove (perms : List String) (st : FileState α) (appId key : String) :
    Except ApiError (FileState α) := do
  let _ ← requirePermission perms "storage:delete"
  .ok (removeKey st appId key none)

/-- `SnAppApiImpl.listKeys`: gated by `storage:read`. -/
def apiListKeys (perms : List String) (st : FileState α) (appId : String)
    (now : Nat) : Except ApiError (List String) := do
  let _ ← requirePermission perms "storage:read"
  .ok (listKeys st appId none now)

/-! ## Theorems -/

/-- Reflexive transitions are always allowed (`if (from === to) return true`). -/
theorem canTransition_self (s : SnAppState) : canTransition s s = true := by
  simp [canTransition]

/-- Every sequence of states a `load` call assigns follows the transition
table. -/
theorem load_trace_valid (app : SnApp) (loader : Except Err Unit) (t1 t2 : Nat) :
    TraceValid app.state (load app loader t1 t2).trace := by
  by_cases h : app.state = .registered
  · cases loader <;>
      simp +decide [load, transition, h, TraceValid, canTransition, validTransitions]
  · simp [load, h, TraceValid]

/-- Every sequence of states an `activate` call assigns follows the
transition table. -/
theorem activate_trace_valid (app : SnApp) (factory : Except Err SnAppInstance)
    (t1 t2 : Nat) : TraceValid app.state (activate app factory t1 t2).trace := by
  by_cases h1 : app.state = .loaded
  · cases factory with
    | error e =>
      simp +decide [activate, transition, h1, TraceValid, canTransition, validTransitions]
    | ok i =>
      rcases hi : i.onActivate with - | e
      · simp +decide [activate, transition, h1, hi, TraceValid, canTransition, validTransitions]
      · cases e <;>
          simp +decide [activate, transition, h1, hi, TraceValid, canTransition, validTransitions]
  · by_cases h2 : app.state = .suspended
    · cases factory with
      | error e =>
        simp +decide [activate, transition, h1, h2, TraceValid, canTransition, validTransitions]
      | ok i =>
        rcases hi : i.onActivate with - | e
        · simp +decide [activate, transition, h1, h2, hi, TraceValid, canTransition,
            validTransitions]
        · cases e <;>
            simp +decide [activate, transition, h1, h2, hi, TraceValid, canTransition,
              validTransitions]
    · simp [activate, h1, h2, TraceValid]

/-- Every sequence of states a `suspend` call assigns follows the
transition table. -/
theorem suspend_trace_valid (app : SnApp) (t1 t2 : Nat) :
    TraceValid app.state (suspend app t1 t2).trace := by
  by_cases h : app.state = .active
  · rcases hI : app.inst with - | i
    · simp +decide [suspend, transition, h, hI, TraceValid, canTransition, validTransitions]
    · rcases hs : i.onSuspend with - | e
      · simp +decide [suspend, transition, h, hI, hs, TraceValid, canTransition,
          validTransitions]
      · cases e <;>
          simp +decide [suspend, transition, h, hI, hs, TraceValid, canTransition,
            validTransitions]
  · simp [suspend, h, TraceValid]

/-- Every sequence of states an `unload` call assigns follows the
transition table. -/
theorem unload_trace_valid (app : SnApp) (t1 t2 : Nat) :
    TraceValid app.state (unload app t1 t2).trace := by
  rcases hI : app.inst with - | i
  · cases h : app.state <;>
      simp +decide [unload, transition, h, hI, TraceValid, canTransition, validTransitions]
  · rcases hd : i.onDestroy with - | e
    · cases h : app.state <;>
        simp +decide [unload, transition, h, hI, hd, TraceValid, canTransition,
          validTransitions]
    · cases e <;> cases h : app.state <;>
        simp +decide [unload, transition, h, hI, hd, TraceValid, canTransition,
          validTransitions]

/-- C1.  The driver's transition test agrees exactly with the section 4.2
table (including `x → x` as a no-op); an attempted transition outside the
table is rejected with `InvalidTransition` carrying the from and to states
and a successful `transition` lands on a table-permitted target; and every
sequence of states any lifecycle operation (`load`, `activate`, `suspend`,
`unload`) assigns to an app — failure branches included — follows the
table. -/
theorem c1_state_changes_follow_table :
    (∀ s t : SnAppState, canTransition s t = specTableAllows s t) ∧
    (∀ (app : SnApp) (tgt : SnAppState) (now : Nat),
      canTransition app.state tgt = false →
        transition app tgt now = .error (.lifecycle app.state tgt)) ∧
    (∀ (app : SnApp) (tgt : SnAppState) (now : Nat) (out : SnApp × List SnAppState),
      transition app tgt now = .ok out →
        out.1.state = tgt ∧ canTransition app.state tgt = true) ∧
    (∀ (app : SnApp) (loader : Except Err Unit) (t1 t2 : Nat),
      TraceValid app.state (load app loader t1 t2).trace) ∧
    (∀ (app : SnApp) (factory : Except Err SnAppInstance) (t1 t2 : Nat),
      TraceValid app.state (activate app factory t1 t2).trace) ∧
    (∀ (app : SnApp) (t1 t2 : Nat), TraceValid app.state (suspend app t1 t2).trace) ∧
    (∀ (app : SnApp) (t1 t2 : Nat), TraceValid app.state (unload app t1 t2).trace) := by
  refine ⟨by intro s t; cases s <;> cases t <;> decide, ?_, ?_, load_trace_valid,
    activate_trace_valid, suspend_trace_valid, unload_trace_valid⟩
  · intro app tgt now h
    have h1 : app.state ≠ tgt := by
      intro e
      rw [e, canTransition_self] at h
      exact Bool.noConfusion h
    unfold transition
    rw [if_neg h1, if_neg (by simp [h])]
  · intro app tgt now out h
    unfold transition at h
    split at h
    · rename_i he
      obtain rfl : (app, ([] : List SnAppState)) = out := congrArg id (Except.ok.inj h)
      exact ⟨he, by rw [he]; exact canTransition_self tgt⟩
    · split at h
      · rename_i hc
        obtain rfl := Except.ok.inj h
        exact ⟨rfl, hc⟩
      · exact absurd h (by simp)

/-- Witness for C1: the invalid jump `registered → active` is rejected with
`InvalidTransition(registered, active)`. -/
theorem c1_state_changes_follow_table_witness :
    transition ⟨.registered, 0, none, none⟩ .active 5 =
      .error (.lifecycle .registered .active) :=
  c1_state_changes_follow_table.2.1 ⟨.registered, 0, none, none⟩ .active 5 (by decide)

/-- Counterexample to C3 as stated: `suspend` invoked on an app that is not
`active` (here: `loaded`, so its precondition is violated) does not raise —
it returns `false` and leaves the app untouched. -/
theorem c3_counterexample :
    suspend ⟨.loaded, 0, none, none⟩ 1 2 = ⟨⟨.loaded, 0, none, none⟩, [], .ok false⟩ := by
  decide

/-- C3 (amended).  When an operation's precondition is violated the app's
state field is always left unchanged; `load` and `activate` raise an error,
while `suspend` (state not `active`) and `unload` (state `registered`)
return `false` without raising. -/
theorem c3_violated_preconditions :
    (∀ (app : SnApp) (loader : Except Err Unit) (t1 t2 : Nat),
      app.state ≠ .registered →
        load app loader t1 t2 = ⟨app, [], .error (.precondition "load" app.state)⟩) ∧
    (∀ (app : SnApp) (factory : Except Err SnAppInstance) (t1 t2 : Nat),
      app.state ≠ .loaded → app.state ≠ .suspended →
        activate app factory t1 t2 =
          ⟨app, [], .error (.precondition "activate" app.state)⟩) ∧
    (∀ (app : SnApp) (t1 t2 : Nat),
      app.state ≠ .active → suspend app t1 t2 = ⟨app, [], .ok false⟩) ∧
    (∀ (app : SnApp) (t1 t2 : Nat),
      app.state = .registered → unload app t1 t2 = ⟨app, [], .ok false⟩) := by
  refine ⟨?_, ?_, ?_, ?_⟩
  · intro app loader t1 t2 h
    unfold load
    rw [if_pos h]
  · intro app factory t1 t2 h1 h2
    unfold activate
    rw [if_pos ⟨h1, h2⟩]
  · intro app t1 t2 h
    unfold suspend
    rw [if_pos h]
  · intro app t1 t2 h
    unfold unload
    rw [if_pos h]

/-- Witness for C3 (amended): `load` on an `active` app raises and leaves
it unchanged; `unload` on a `registered` app returns `false` unchanged. -/
theorem c3_violated_preconditions_witness :
    load ⟨.active, 7, none, none⟩ (.ok ()) 1 2 =
      ⟨⟨.active, 7, none, none⟩, [], .error (.precondition "load" .active)⟩ ∧
    unload ⟨.registered, 7, none, none⟩ 1 2 = ⟨⟨.registered, 7, none, none⟩, [], .ok false⟩ :=
  ⟨c3_violated_preconditions.1 ⟨.active, 7, none, none⟩ (.ok ()) 1 2 (by decide),
   c3_violated_preconditions.2.2.2 ⟨.registered, 7, none, none⟩ 1 2 (by decide)⟩

/-- C4.  For every operation whose precondition holds — the starting state
being a table source of the operation's target — and for timestamps sampled
from a strictly advancing clock (`stateChangedAt < t1 < t2`), the operation
leaves the app exactly in its target state (`loaded`/`active`/`suspended`/
`registered` on success, `error` on the failure branches) with
`stateChangedAt` strictly later than before the call: `t2` on success, and
`t1` — the intermediate transition's time — on the failure branches, whose
direct `state = 'error'` assignment does not resample the clock. -/
theorem c4_postconditions :
    (∀ (app : SnApp) (t1 t2 : Nat), app.state = .registered →
      app.stateChangedAt < t1 → t1 < t2 →
        (load app (.ok ()) t1 t2).snapp.state = .loaded ∧
        (load app (.ok ()) t1 t2).snapp.stateChangedAt = t2 ∧
        app.stateChangedAt < (load app (.ok ()) t1 t2).snapp.stateChangedAt) ∧
    (∀ (app : SnApp) (e : Err) (t1 t2 : Nat), app.state = .registered →
      app.stateChangedAt < t1 → t1 < t2 →
        (load app (.error e) t1 t2).snapp.state = .error ∧
        (load app (.error e) t1 t2).snapp.stateChangedAt = t1 ∧
        app.stateChangedAt < (load app (.error e) t1 t2).snapp.stateChangedAt) ∧
    (∀ (app : SnApp) (i : SnAppInstance) (t1 t2 : Nat),
      app.state = .loaded ∨ app.state = .suspended →
      app.stateChangedAt < t1 → t1 < t2 →
      i.onActivate = none ∨ i.onActivate = some (.ok ()) →
        (activate app (.ok i) t1 t2).snapp.state = .active ∧
        (activate app (.ok i) t1 t2).snapp.stateChangedAt = t2 ∧
        app.stateChangedAt < (activate app (.ok i) t1 t2).snapp.stateChangedAt) ∧
    (∀ (app : SnApp) (e : Err) (t1 t2 : Nat),
      app.state = .loaded ∨ app.state = .suspended →
      app.stateChangedAt < t1 → t1 < t2 →
        (activate app (.error e) t1 t2).snapp.state = .error ∧
        (activate app (.error e) t1 t2).snapp.stateChangedAt = t1 ∧
        app.stateChangedAt < (activate app (.error e) t1 t2).snapp.stateChangedAt) ∧
    (∀ (app : SnApp) (i : SnAppInstance) (e : Err) (t1 t2 : Nat),
      app.state = .loaded ∨ app.state = .suspended →
      app.stateChangedAt < t1 → t1 < t2 →
      i.onActivate = some (.error e) →
        (activate app (.ok i) t1 t2).snapp.state = .error ∧
        (activate app (.ok i) t1 t2).snapp.stateChangedAt = t1 ∧
        app.stateChangedAt < (activate app (.ok i) t1 t2).snapp.stateChangedAt) ∧
    (∀ (app : SnApp) (t1 t2 : Nat), app.state = .active →
      app.stateChangedAt < t1 → t1 < t2 →
      (∀ e, app.inst.bind (·.onSuspend) ≠ some (.error e)) →
        (suspend app t1 t2).snapp.state = .suspended ∧
        (suspend app t1 t2).snapp.stateChangedAt = t2 ∧
        (suspend app t1 t2).result = .ok true ∧
        app.stateChangedAt < (suspend app t1 t2).snapp.stateChangedAt) ∧
    (∀ (app : SnApp) (e : Err) (t1 t2 : Nat), app.state = .active →
      app.stateChangedAt < t1 → t1 < t2 →
      app.inst.bind (·.onSuspend) = some (.error e) →
        (suspend app t1 t2).snapp.state = .error ∧
        (suspend app t1 t2).snapp.stateChangedAt = t1 ∧
        app.stateChangedAt < (suspend app t1 t2).snapp.stateChangedAt) ∧
    (∀ (app : SnApp) (t1 t2 : Nat),
      app.state = .loaded ∨ app.state = .active ∨ app.state = .suspended ∨
        app.state = .error →
      app.stateChangedAt < t1 → t1 < t2 →
      (∀ e, app.inst.bind (·.onDestroy) ≠ some (.error e)) →
        (unload app t1 t2).snapp.state = .registered ∧
        (unload app t1 t2).snapp.stateChangedAt = t2 ∧
        (unload app t1 t2).result = .ok true ∧
        app.stateChangedAt < (unload app t1 t2).snapp.stateChangedAt) ∧
    (∀ (app : SnApp) (e : Err) (t1 t2 : Nat),
      app.state = .loaded ∨ app.state = .active ∨ app.state = .suspended ∨
        app.state = .error →
      app.stateChangedAt < t1 → t1 < t2 →
      app.inst.bind (·.onDestroy) = some (.error e) →
        (unload app t1 t2).snapp.state = .error ∧
        (unload app t1 t2).snapp.stateChangedAt = t1 ∧
        app.stateChangedAt < (unload app t1 t2).snapp.stateChangedAt) := by
  refine ⟨?_, ?_, ?_, ?_, ?_, ?_, ?_, ?_, ?_⟩
  · intro app t1 t2 h hsc ht
    refine ⟨?_, ?_, ?_⟩ <;>
      simp +decide [load, transition, h, canTransition, validTransitions]
    exact lt_trans hsc ht
  · intro app e t1 t2 h hsc ht
    refine ⟨?_, ?_, ?_⟩ <;>
      simp +decide [load, transition, h, canTransition, validTransitions]
    exact hsc
  · intro app i t1 t2 h hsc ht hact
    rcases h with h | h <;> rcases hact with hact | hact <;>
      (refine ⟨?_, ?_, ?_⟩ <;>
        simp +decide [activate, transition, h, hact, canTransition, validTransitions])
    all_goals exact lt_trans hsc ht
  · intro app e t1 t2 h hsc ht
    rcases h with h | h <;>
      (refine ⟨?_, ?_, ?_⟩ <;>
        simp +decide [activate, transition, h, canTransition, validTransitions])
    all_goals exact hsc
  · intro app i e t1 t2 h hsc ht hact
    rcases h with h | h <;>
      (refine ⟨?_, ?_, ?_⟩ <;>
        simp +decide [activate, transition, h, hact, canTransition, validTransitions])
    all_goals exact hsc
  · intro app t1 t2 h hsc ht hns
    rcases hI : app.inst with - | i
    · refine ⟨?_, ?_, ?_, ?_⟩ <;>
        simp +decide [suspend, transition, h, hI, canTransition, validTransitions]
      exact lt_trans hsc ht
    · rcases hs : i.onSuspend with - | e
      · refine ⟨?_, ?_, ?_, ?_⟩ <;>
          simp +decide [suspend, transition, h, hI, hs, canTransition, validTransitions]
        exact lt_trans hsc ht
      · cases e with
        | ok u =>
          refine ⟨?_, ?_, ?_, ?_⟩ <;>
            simp +decide [suspend, transition, h, hI, hs, canTransition, validTransitions]
          exact lt_trans hsc ht
        | error e =>
          exact absurd (by rw [hI, Option.some_bind, hs]) (hns e)
  · intro app e t1 t2 h hsc ht hthrow
    rcases hI : app.inst with - | i
    · rw [hI] at hthrow
      exact absurd hthrow (by simp)
    · rw [hI, Option.some_bind] at hthrow
      refine ⟨?_, ?_, ?_⟩ <;>
        simp +decide [suspend, transition, h, hI, hthrow, canTransition, validTransitions]
      exact hsc
  · intro app t1 t2 h hsc ht hnd
    rcases hI : app.inst with - | i
    · rcases h with h | h | h | h <;>
        (refine ⟨?_, ?_, ?_, ?_⟩ <;>
          simp +decide [unload, transition, h, hI, canTransition, validTransitions])
      all_goals exact lt_trans hsc ht
    · rcases hd : i.onDestroy with - | e
      · rcases h with h | h | h | h <;>
          (refine ⟨?_, ?_, ?_, ?_⟩ <;>
            simp +decide [unload, transition, h, hI, hd, canTransition, validTransitions])
        all_goals exact lt_trans hsc ht
      · cases e with
        | ok u =>
          rcases h with h | h | h | h <;>
            (refine ⟨?_, ?_, ?_, ?_⟩ <;>
              simp +decide [unload, transition, h, hI, hd, canTransition, validTransitions])
          all_goals exact lt_trans hsc ht
        | error e =>
          exact absurd (by rw [hI, Option.some_bind, hd]) (hnd e)
  · intro app e t1 t2 h hsc ht hthrow
    rcases hI : app.inst with - | i
    · rw [hI] at hthrow
      exact absurd hthrow (by simp)
    · rw [hI, Option.some_bind] at hthrow
      rcases h with h | h | h | h <;>
        (refine ⟨?_, ?_, ?_⟩ <;>
          simp +decide [unload, transition, h, hI, hthrow, canTransition, validTransitions])
      all_goals exact hsc

/-- Witness for C4: a full successful `load` at times 1 and 2 of a freshly
registered app lands on `loaded` with `stateChangedAt = 2 > 0`, and a
factory that throws during `activate` lands on `error` at the intermediate
time. -/
theorem c4_postconditions_witness :
    ((load ⟨.registered, 0, none, none⟩ (.ok ()) 1 2).snapp.state = .loaded ∧
     (load ⟨.registered, 0, none, none⟩ (.ok ()) 1 2).snapp.stateChangedAt = 2 ∧
     0 < (load ⟨.registered, 0, none, none⟩ (.ok ()) 1 2).snapp.stateChangedAt) ∧
    ((activate ⟨.loaded, 2, none, none⟩ (.error (.user 9)) 3 4).snapp.state = .error ∧
     (activate ⟨.loaded, 2, none, none⟩ (.error (.user 9)) 3 4).snapp.stateChangedAt = 3 ∧
     2 < (activate ⟨.loaded, 2, none, none⟩ (.error (.user 9)) 3 4).snapp.stateChangedAt) :=
  ⟨c4_postconditions.1 ⟨.registered, 0, none, none⟩ 1 2 rfl (by decide) (by decide),
   c4_postconditions.2.2.2.1 ⟨.loaded, 2, none, none⟩ (.user 9) 3 4 (Or.inl rfl)
     (by decide) (by decide)⟩

/-- `emit` walks the handler list in order and — because each invocation is
wrapped in its own `try`/`catch` — never throws: it returns exactly the
filter-passing handlers in list order, logging the throwing ones. -/
theorem emitHooks_eq {π : Type} (hs : List (HookHandler π)) (p : π) :
    emitHooks hs p =
      .ok ((hs.filter (fun h => h.filterPass p)).map (·.hid),
        (hs.filter (fun h => h.filterPass p && h.throwsOn p)).map (·.hid)) := by
  induction hs with
  | nil => rfl
  | cons h rest ih =>
    by_cases hf : h.filterPass p
    · by_cases ht : h.throwsOn p <;> simp [emitHooks, hf, ht, ih]
    · simp [emitHooks, hf, ih]

/-- Membership after `insertByPriority`. -/
theorem mem_insertByPriority {h x : HookHandler π} {hs : List (HookHandler π)} :
    x ∈ insertByPriority h hs ↔ x = h ∨ x ∈ hs := by
  induction hs with
  | nil => simp [insertByPriority]
  | cons y ys ih =>
    by_cases hc : y.priority ≥ h.priority <;>
      simp [insertByPriority, hc, ih] <;> try tauto

/-- Inserting a handler with a fresh (largest) id into a `HookLex`-sorted
list keeps the list sorted: it goes after all entries of priority `≥` its
own and before the strictly smaller ones. -/
theorem pairwise_insertByPriority {h : HookHandler π} {hs : List (HookHandler π)}
    (hb : ∀ x ∈ hs, x.hid < h.hid) (hp : hs.Pairwise HookLex) :
    (insertByPriority h hs).Pairwise HookLex := by
  induction hs with
  | nil => simp [insertByPriority, HookLex]
  | cons y ys ih =>
    rw [List.pairwise_cons] at hp
    by_cases hc : y.priority ≥ h.priority
    · rw [insertByPriority, if_pos hc, List.pairwise_cons]
      refine ⟨?_, ih (fun x hx => hb x (List.mem_cons_of_mem y hx)) hp.2⟩
      intro x hx
      rcases mem_insertByPriority.mp hx with rfl | hx
      · rcases lt_or_eq_of_le hc with hlt | heq
        · exact Or.inl hlt
        · exact Or.inr ⟨heq.symm, hb y (List.mem_cons_self y ys)⟩
      · exact hp.1 x hx
    · rw [insertByPriority, if_neg hc, List.pairwise_cons]
      have hy : y.priority < h.priority := lt_of_not_ge hc
      refine ⟨?_, List.pairwise_cons.mpr hp⟩
      intro x hx
      rcases List.mem_cons.mp hx with rfl | hx
      · exact Or.inl hy
      · rcases hp.1 x hx with hlt | ⟨heq, _⟩
        · exact Or.inl (lt_trans hlt hy)
        · exact Or.inl (heq ▸ hy)

/-- Registering any batch of handlers on top of a sorted list whose ids are
all smaller than the next fresh id keeps the list `HookLex`-sorted with all
ids below the next fresh id. -/
theorem registerAllFrom_sorted {π : Type} :
    ∀ (ps : List Int) (n : Nat) (hs : List (HookHandler π)),
      hs.Pairwise HookLex → (∀ x ∈ hs, x.hid < n) →
      (registerAllFrom n ps hs).Pairwise HookLex ∧
        ∀ x ∈ registerAllFrom n ps hs, x.hid < n + ps.length := by
  intro ps
  induction ps with
  | nil =>
    intro n hs hp hb
    exact ⟨hp, fun x hx => lt_of_lt_of_le (hb x hx) (Nat.le_add_right n 0)⟩
  | cons p ps ih =>
    intro n hs hp hb
    have hstep : (hookOn hs ⟨n, p, fun _ => true, fun _ => false⟩).Pairwise HookLex :=
      pairwise_insertByPriority (fun x hx => hb x hx) hp
    have hbound : ∀ x ∈ hookOn hs ⟨n, p, fun _ => true, fun _ => false⟩, x.hid < n + 1 := by
      intro x hx
      rcases mem_insertByPriority.mp hx with rfl | hx
      · exact Nat.lt_succ_self n
      · exact lt_trans (hb x hx) (Nat.lt_succ_self n)
    have := ih (n + 1) _ hstep hbound
    refine ⟨this.1, fun x hx => ?_⟩
    have := this.2 x hx
    simp only [List.length_cons]
    omega

/-- C9.  After any sequence of `on` registrations (priorities `ps`, ids
handed out in registration order) the handler list is sorted by strictly
descending priority with insertion order among equal priorities
(`HookLex`), and `emit` invokes handlers in exactly that list order; in
particular three handlers registered on one event with priorities 1, 3, 2
observe the payload in priority order 3, 2, 1 (ids `[2, 3, 1]`). -/
theorem c9_priority_ordering :
    (∀ ps : List Int, (registerAll (π := Unit) ps).Pairwise HookLex) ∧
    (∀ (ps : List Int) (p : Unit),
      emitHooks (registerAll ps) p =
        .ok ((registerAll (π := Unit) ps).map (·.hid), [])) ∧
    (registerAll (π := Unit) [1, 3, 2]).map (·.priority) = [3, 2, 1] ∧
    emitHooks (registerAll (π := Unit) [1, 3, 2]) () = .ok ([2, 3, 1], []) := by
  have hreg : ∀ ps : List Int, (registerAll (π := Unit) ps).Pairwise HookLex := by
    intro ps
    exact (registerAllFrom_sorted ps 1 [] (by simp) (by simp)).1
  have hfilter : ∀ (ps : List Int),
      (registerAll (π := Unit) ps).filter (fun h => h.filterPass ()) =
        registerAll (π := Unit) ps := by
    intro ps
    apply List.filter_eq_self.mpr
    intro h hmem
    have : ∀ (n : Nat) (hs : List (HookHandler Unit)),
        (∀ x ∈ hs, x.filterPass () = true ∧ x.throwsOn () = false) →
        ∀ x ∈ registerAllFrom n ps hs,
          x.filterPass () = true ∧ x.throwsOn () = false := by
      clear hmem h
      induction ps with
      | nil => intro n hs hinv x hx; exact hinv x hx
      | cons p ps ih =>
        intro n hs hinv x hx
        refine ih (n + 1) _ ?_ x hx
        intro y hy
        rcases mem_insertByPriority.mp hy with rfl | hy
        · exact ⟨rfl, rfl⟩
        · exact hinv y hy
    exact (this 1 [] (by simp) h hmem).1
  refine ⟨hreg, ?_, by rfl, by rfl⟩
  intro ps p
  rw [emitHooks_eq]
  cases p
  rw [hfilter]
  congr 1
  have hthrow : (registerAll (π := Unit) ps).filter
      (fun h => h.filterPass () && h.throwsOn ()) = [] := by
    apply List.filter_eq_nil_iff.mpr
    intro h hmem
    have : ∀ (n : Nat) (hs : List (HookHandler Unit)),
        (∀ x ∈ hs, x.throwsOn () = false) →
        ∀ x ∈ registerAllFrom n ps hs, x.throwsOn () = false := by
      clear hmem h
      induction ps with
      | nil => intro n hs hinv x hx; exact hinv x hx
      | cons p ps ih =>
        intro n hs hinv x hx
        refine ih (n + 1) _ ?_ x hx
        intro y hy
        rcases mem_insertByPriority.mp hy with rfl | hy
        · rfl
        · exact hinv y hy
    simp [this 1 [] (by simp) h hmem]
  rw [hthrow]
  rfl

/-- C10.  A throwing handler never prevents its siblings from running: a
hook `emit` returns normally (never raises) and invokes every
filter-passing handler in order, logging — not propagating — the throwing
ones; a bus `publish` invokes every subscriber in subscription order and
logs the throwing ones. -/
theorem c10_throwing_handlers_isolated :
    (∀ (π : Type) (hs : List (HookHandler π)) (p : π),
      emitHooks hs p =
        .ok ((hs.filter (fun h => h.filterPass p)).map (·.hid),
          (hs.filter (fun h => h.filterPass p && h.throwsOn p)).map (·.hid))) ∧
    (∀ subs : List Subscription,
      (publishChannel subs).2.1 = subs.map (·.hid) ∧
      (publishChannel subs).2.2 = (subs.filter (·.throws)).map (·.hid)) := by
  have hrun : ∀ (subs : List Subscription) (i : Nat),
      (runSubs subs i).1 = subs.map (·.hid) ∧
      (runSubs subs i).2.1 = (subs.filter (·.throws)).map (·.hid) := by
    intro subs
    induction subs with
    | nil => intro i; exact ⟨rfl, rfl⟩
    | cons s rest ih =>
      intro i
      by_cases hth : s.throws
      · simp [runSubs, hth, (ih (i + 1)).1, (ih (i + 1)).2]
      · by_cases ho : s.once <;>
          simp [runSubs, hth, ho, (ih (i + 1)).1, (ih (i + 1)).2]
  refine ⟨fun π hs p => emitHooks_eq hs p, fun subs => ?_⟩
  unfold publishChannel
  exact ⟨(hrun subs 0).1, (hrun subs 0).2⟩

/-- C5 fails on the code: a `subscribeOnce` handler that throws during its
delivery is not removed — `toRemove.push(index)` sits after the handler
call inside the `try`, so the throw skips it — and the handler is invoked
again by the next publish on the channel, observing a second publication.
A non-throwing one-shot subscription is removed as intended.  Concretely:
subscription 1 (once, throwing) is invoked by a first publish, survives it
unchanged, and is invoked again by a second publish, while subscription 2
(once, non-throwing) is gone after one publish. -/
theorem c5_throwing_once_handler_redelivered :
    (publishChannel [⟨1, "app", true, true⟩]).2.1 = [1] ∧
    (publishChannel [⟨1, "app", true, true⟩]).1 = [⟨1, "app", true, true⟩] ∧
    (publishChannel (publishChannel [⟨1, "app", true, true⟩]).1).2.1 = [1] ∧
    (publishChannel [⟨2, "app", true, false⟩]).1 = [] := by
  decide

/-- Counterexample to C2 as stated: with no handler registered anywhere
(the empty bus), `request("srv", "ping", _, 50)` settles by the timeout
timer's rejection — the `Request timeout` error, not `UnknownMethod`. -/
theorem c2_counterexample :
    (request emptyBus "srv" "ping" 50).2 =
      ⟨.error (.requestTimeout "srv" "ping"), 50⟩ ∧
    (request emptyBus "srv" "ping" 50).2.outcome ≠
      .error (.unknownMethod "srv" "ping") := by
  decide

/-- C2 (amended).  A `request` for a `(targetApp, method)` pair with no
registered handler is rejected with the `RequestTimeout` error after the
given timeout: `request` never consults the method registry (so no
`UnknownMethod` rejection exists), publishes the envelope on the reserved
`rpc:` channel, and the armed timer is the only code path that ever settles
the deferred. -/
theorem c2_unknown_method_rejects_with_timeout (bus : BusState)
    (target method : String) (timeoutMs : Nat)
    (h : hasMethod bus target method = false) :
    (request bus target method timeoutMs).2 =
      ⟨.error (.requestTimeout target method), timeoutMs⟩ :=
  rfl

/-- Witness for C2 (amended): the concrete scenario of the specification's
section 8 test 6. -/
theorem c2_unknown_method_rejects_with_timeout_witness :
    (request emptyBus "srv" "ping" 50).2 =
      ⟨.error (.requestTimeout "srv" "ping"), 50⟩ :=
  c2_unknown_method_rejects_with_timeout emptyBus "srv" "ping" 50 (by decide)

/-- `validateManifest` rejects exactly when one of the section 4.1
required-field rules (as collected by `ruleViolated`) is violated; the
warning-only checks (long `shortName`, unknown permission tags) appear in
no disjunct. -/
theorem validateManifest_isError (m : Manifest) :
    isErr (validateManifest m) = ruleViolated m := by
  unfold validateManifest ruleViolated
  split_ifs <;> simp_all [isErr, Option.isSome_iff_ne_none]

/-- A manifest differing from a fully valid one only in its empty-string
`version` field. -/
def mfEmptyVersion : Manifest :=
  ⟨some "a", some "n", some "e", none, some "", some (.arr []), some ⟨some "2.0.0"⟩⟩

/-- Counterexample to C6 as stated: a manifest whose `version` field is
present (the empty string) and does not begin with
`digits.digits.digits`, which the claim's rule list says must be rejected,
is accepted by `register` — the source guard `manifest.version && !regex`
skips the check for a falsy (empty) version. -/
theorem c6_counterexample :
    (registerApp [] mfEmptyVersion 7).isOk = true ∧
    mfEmptyVersion.version = some "" ∧
    semverStart "" = false := by
  decide

/-- C6 (amended).  `register` raises exactly when the id is already
catalogued or a required-field rule of section 4.1 is violated — where a
field counts as present only when non-empty (JS truthiness), so an
empty-string `version` is ignored rather than rejected and an empty-string
required field counts as missing; warnings (unknown permission tags, long
`shortName`) never cause rejection; a duplicate id raises `DuplicateId`;
and on acceptance the new entry is appended with `state = registered` and
`registeredAt = stateChangedAt = now`. -/
theorem c6_register_iff :
    (∀ (reg : Registry) (m : Manifest) (now : Nat),
      isErr (registerApp reg m now) =
        ((m.id.isSome && (reg.lookup (m.id.getD "")).isSome) || ruleViolated m)) ∧
    (∀ (reg : Registry) (m : Manifest) (now : Nat),
      m.id.isSome → (reg.lookup (m.id.getD "")).isSome →
        registerApp reg m now = .error (.duplicateId (m.id.getD ""))) ∧
    (∀ (reg : Registry) (m : Manifest) (now : Nat) (reg' : Registry),
      registerApp reg m now = .ok reg' →
        reg' = reg ++ [(m.id.getD "", ⟨m, .registered, now, now⟩)]) := by
  refine ⟨?_, ?_, ?_⟩
  · intro reg m now
    unfold registerApp
    by_cases hd : (m.id.isSome && (reg.lookup (m.id.getD "")).isSome : Bool) = true
    · rw [if_pos hd]
      simp [hd, isErr]
    · rw [if_neg hd]
      have hve := validateManifest_isError m
      cases hv : validateManifest m with
      | error e =>
        rw [hv] at hve
        simp only [Bool.not_eq_true] at hd
        simp [hd, ← hve, isErr]
      | ok w =>
        rw [hv] at hve
        simp only [Bool.not_eq_true] at hd
        simp [hd, ← hve, isErr]
  · intro reg m now h1 h2
    unfold registerApp
    rw [if_pos (by simp [h1, h2])]
  · intro reg m now reg' h
    unfold registerApp at h
    by_cases hd : (m.id.isSome && (reg.lookup (m.id.getD "")).isSome : Bool) = true
    · rw [if_pos hd] at h
      exact absurd h (by simp)
    · rw [if_neg hd] at h
      cases hv : validateManifest m with
      | error e =>
        rw [hv] at h
        exact absurd h (by simp)
      | ok w =>
        rw [hv] at h
        exact (Except.ok.inj h).symm

/-- A manifest that is valid apart from warning-only findings: an unknown
permission tag and a 7-character `shortName`. -/
def mfWarned : Manifest :=
  ⟨some "my-app", some "My App", some "./index", some "toolong",
    some "1.2.3", some (.arr ["storage:read", "not-a-permission"]),
    some ⟨some "2.0.0"⟩⟩

/-- Witness for C6 (amended): registering a manifest with warning-only
findings succeeds, the accepted entry is the appended `registered` entry
stamped at the registration time, and registering the same id twice raises
`DuplicateId`. -/
theorem c6_register_iff_witness :
    registerApp [] mfWarned 42 = .ok [("my-app", ⟨mfWarned, .registered, 42, 42⟩)] ∧
    ([("my-app", ⟨mfWarned, .registered, 42, 42⟩)] : Registry) =
      [] ++ [(mfWarned.id.getD "", ⟨mfWarned, .registered, 42, 42⟩)] ∧
    registerApp [("my-app", ⟨mfEmptyVersion, .registered, 1, 1⟩)] mfWarned 42 =
      .error (.duplicateId "my-app") :=
  ⟨by decide,
   c6_register_iff.2.2 [] mfWarned 42
     [("my-app", ⟨mfWarned, .registered, 42, 42⟩)] (by decide),
   c6_register_iff.2.1 [("my-app", ⟨mfEmptyVersion, .registered, 1, 1⟩)] mfWarned 42
     (by decide) (by decide)⟩

/-- Unfolding `List.lookup` at a matching head. -/
theorem lookup_cons_self (a : String) (b : β) (t : List (String × β)) :
    ((a, b) :: t).lookup a = some b := by
  simp [List.lookup]

/-- Unfolding `List.lookup` at a non-matching head. -/
theorem lookup_cons_ne (a k : String) (b : β) (t : List (String × β))
    (h : k ≠ a) : ((a, b) :: t).lookup k = t.lookup k := by
  have hb : (k == a) = false := by simp [h]
  simp [List.lookup, hb]

/-- Lookup passes over a prefix that does not bind the key. -/
theorem lookup_append_right (l l₂ : List (String × β)) (k : String)
    (h : l.lookup k = none) : (l ++ l₂).lookup k = l₂.lookup k := by
  induction l with
  | nil => rfl
  | cons hd tl ih =>
    obtain ⟨a, b⟩ := hd
    by_cases ha : k = a
    · rw [ha, lookup_cons_self] at h
      exact absurd h (by simp)
    · rw [lookup_cons_ne a k b tl ha] at h
      rw [List.cons_append, lookup_cons_ne a k b (tl ++ l₂) ha]
      exact ih h

/-- Replacing the bucket of `k` in place makes `k` look up the new value. -/
theorem lookup_map_replace (l : List (String × β)) (k : String) (v : β)
    (h : (l.lookup k).isSome = true) :
    (l.map (fun kv => if kv.1 = k then (k, v) else kv)).lookup k = some v := by
  induction l with
  | nil => simp [List.lookup] at h
  | cons hd tl ih =>
    obtain ⟨a, b⟩ := hd
    by_cases ha : a = k
    · subst ha
      show ((if a = a then (a, v) else (a, b)) ::
        tl.map fun kv => if kv.1 = a then (a, v) else kv).lookup a = some v
      rw [if_pos rfl]
      exact lookup_cons_self a v _
    · rw [lookup_cons_ne a k b tl (fun e => ha e.symm)] at h
      show ((if a = k then (k, v) else (a, b)) ::
        tl.map fun kv => if kv.1 = k then (k, v) else kv).lookup k = some v
      rw [if_neg ha]
      rw [lookup_cons_ne a k b _ (fun e => ha e.symm)]
      exact ih h

/-- `setAssoc` makes its key look up its value. -/
theorem lookup_setAssoc_self (l : List (String × β)) (k : String) (v : β) :
    (setAssoc l k v).lookup k = some v := by
  unfold setAssoc
  by_cases hc : ((l.lookup k).isSome : Bool) = true
  · rw [if_pos hc]
    exact lookup_map_replace l k v hc
  · rw [if_neg hc]
    have hn : l.lookup k = none := by
      cases h : l.lookup k with
      | none => rfl
      | some w => rw [h] at hc; simp at hc
    rw [lookup_append_right _ _ _ hn]
    simp [List.lookup]

/-- The memory mirror finds an entry just inserted under its
`(namespace, key)`. -/
theorem memLookup_memInsert (mem : List (String × List (String × StateEntry α)))
    (ns k : String) (e : StateEntry α) :
    memLookup (memInsert mem ns k e) ns k = some e := by
  unfold memLookup memInsert
  rw [lookup_setAssoc_self]
  exact lookup_setAssoc_self _ _ _

/-- `sanitizePath` is idempotent: its output only contains kept
characters. -/
theorem sanitize_idem (s : String) : sanitize (sanitize s) = sanitize s := by
  unfold sanitize
  congr 1
  show ((s.toList.map fun c => if sanitizeKeeps c then c else '_').map
      fun c => if sanitizeKeeps c then c else '_') =
    s.toList.map fun c => if sanitizeKeeps c then c else '_'
  rw [List.map_map]
  apply List.map_congr_left
  intro c _
  by_cases h : sanitizeKeeps c
  · simp [Function.comp, h]
  · simp [Function.comp, h]

/-- The `listKeys` loop body skips a file whose entry does not load. -/
theorem listStep_none {files : List (DiskFile α)} {now : Nat} {f : DiskFile α}
    (h : loadFile files (sanitize f.base) = none) (acc : List String) :
    listStep files now acc f = acc := by
  simp [listStep, h]

/-- The `listKeys` loop body skips a file whose entry is expired. -/
theorem listStep_expired {files : List (DiskFile α)} {now : Nat} {f : DiskFile α}
    {e : StateEntry α} (h : loadFile files (sanitize f.base) = some e)
    (he : isExpiredAt now e = true) (acc : List String) :
    listStep files now acc f = acc := by
  simp [listStep, h, he]

/-- The `listKeys` loop body keeps a file whose entry loads unexpired. -/
theorem listStep_live {files : List (DiskFile α)} {now : Nat} {f : DiskFile α}
    {e : StateEntry α} (h : loadFile files (sanitize f.base) = some e)
    (he : isExpiredAt now e = false) (acc : List String) :
    listStep files now acc f = acc ++ [f.base] := by
  simp [listStep, h, he]

/-- Writing a file whose `(base, ext)` pair is not yet present appends
it. -/
theorem writeFile_fresh (files : List (DiskFile α)) (b : String) (x : FileExt)
    (e : StateEntry α)
    (h : files.any (fun f => f.base = b && f.ext = x) = false) :
    writeFile files b x e = files ++ [⟨b, x, e⟩] := by
  unfold writeFile
  rw [if_neg (by rw [h]; exact Bool.noConfusion)]

/-- Loading a freshly written file whose base name collides with no other
file in the directory yields exactly its entry, whichever extension the
write used (the `.enc` probe and the `.json` probe both reach it). -/
theorem loadFile_append_fresh (files : List (DiskFile α)) (f0 : DiskFile α)
    (h : ∀ f ∈ files, f.base ≠ f0.base) :
    loadFile (files ++ [f0]) f0.base = some f0.entry := by
  have hn : ∀ x : FileExt,
      files.find? (fun f => f.base = f0.base && f.ext = x) = none := by
    intro x
    apply List.find?_eq_none.mpr
    intro f hf
    simp [h f hf]
  unfold loadFile
  rw [List.find?_append, hn FileExt.enc, Option.none_or]
  cases hx : f0.ext with
  | enc =>
    have h1 : List.find? (fun f => f.base = f0.base && f.ext = FileExt.enc) [f0] =
        some f0 := by
      simp [List.find?, hx]
    rw [h1]
  | json =>
    have h1 : List.find? (fun f => f.base = f0.base && f.ext = FileExt.enc) [f0] =
        none := by
      simp [List.find?, hx]
    have h2 : List.find? (fun f => f.base = f0.base && f.ext = FileExt.json) [f0] =
        some f0 := by
      simp [List.find?, hx]
    rw [h1, List.find?_append, hn FileExt.json, Option.none_or, h2]
    rfl

/-- Membership in the `listKeys` fold: a key is produced exactly from a
directory file whose stripped name loads as a non-expired entry. -/
theorem mem_listKeys_go (files : List (DiskFile α)) (now : Nat) :
    ∀ (l : List (DiskFile α)) (acc : List String) (x : String),
      (x ∈ l.foldl (listStep files now) acc ↔
        x ∈ acc ∨ ∃ f ∈ l, f.base = x ∧
          ∃ e, loadFile files (sanitize f.base) = some e ∧
            isExpiredAt now e = false) := by
  intro l
  induction l with
  | nil =>
    intro acc x
    simp
  | cons f rest ih =>
    intro acc x
    rw [List.foldl_cons, ih]
    cases hl : loadFile files (sanitize f.base) with
    | none =>
      rw [listStep_none hl]
      constructor
      · rintro (hx | ⟨g, hg, hgx, he⟩)
        · exact Or.inl hx
        · exact Or.inr ⟨g, List.mem_cons_of_mem f hg, hgx, he⟩
      · rintro (hx | ⟨g, hg, hgx, he⟩)
        · exact Or.inl hx
        · rcases List.mem_cons.mp hg with rfl | hg
          · rcases he with ⟨e, he, _⟩
            rw [hl] at he
            exact absurd he (by simp)
          · exact Or.inr ⟨g, hg, hgx, he⟩
    | some e =>
      by_cases hex : isExpiredAt now e = true
      · rw [listStep_expired hl hex]
        constructor
        · rintro (hx | ⟨g, hg, hgx, he⟩)
          · exact Or.inl hx
          · exact Or.inr ⟨g, List.mem_cons_of_mem f hg, hgx, he⟩
        · rintro (hx | ⟨g, hg, hgx, he⟩)
          · exact Or.inl hx
          · rcases List.mem_cons.mp hg with rfl | hg
            · rcases he with ⟨e', he', hne⟩
              rw [hl] at he'
              obtain rfl := Option.some.inj he'
              rw [hex] at hne
              exact absurd hne (by simp)
            · exact Or.inr ⟨g, hg, hgx, he⟩
      · rw [Bool.not_eq_true] at hex
        rw [listStep_live hl hex]
        constructor
        · rintro (hx | ⟨g, hg, hgx, he⟩)
          · rcases List.mem_append.mp hx with hx | hx
            · exact Or.inl hx
            · obtain rfl := List.mem_singleton.mp hx
              exact Or.inr ⟨f, List.mem_cons_self f rest, rfl, e, hl, hex⟩
          · exact Or.inr ⟨g, List.mem_cons_of_mem f hg, hgx, he⟩
        · rintro (hx | ⟨g, hg, hgx, he⟩)
          · exact Or.inl (List.mem_append_left _ hx)
          · rcases List.mem_cons.mp hg with rfl | hg
            · exact Or.inl (List.mem_append_right _ (List.mem_singleton.mpr hgx.symm))
            · exact Or.inr ⟨g, hg, hgx, he⟩

/-- Counterexample to C7 as stated: `persist` with `ttl = 0` stores no
expiry at all (`options.ttl ? now + options.ttl : undefined` is falsy at 0),
so `restore` evaluated at `t = 15 > createdAt + T = 10 + 0` still returns
the stored value `1` instead of the supplied default `0`. -/
theorem c7_counterexample :
    (restore (persist (emptyStore Nat) "a" "k" 1 ⟨none, some 0, none⟩ 10)
      "a" "k" (some 0) none 15).2 = some 1 := by
  decide

/-- C7 (amended, `T > 0`).  An entry persisted with a positive
`ttl = T` at time `now` restores to its value at any `t < now + T` and to
the supplied default at any `t > now + T`; and `listKeys` evaluated after
expiration does not produce the key (stated for a directory with no other
file of the same sanitized base name, which would shadow it). -/
theorem c7_ttl_expiry :
    (∀ (α : Type) (st : FileState α) (id key : String) (v : α)
        (nsOpt : Option String) (encOpt : Option Bool) (T now t : Nat) (d : Option α),
      0 < T → t < now + T →
        (restore (persist st id key v ⟨nsOpt, some T, encOpt⟩ now)
          id key d nsOpt t).2 = some v) ∧
    (∀ (α : Type) (st : FileState α) (id key : String) (v : α)
        (nsOpt : Option String) (encOpt : Option Bool) (T now t : Nat) (d : Option α),
      0 < T → now + T < t →
        (restore (persist st id key v ⟨nsOpt, some T, encOpt⟩ now)
          id key d nsOpt t).2 = d) ∧
    (∀ (α : Type) (st : FileState α) (id key : String) (v : α)
        (nsOpt : Option String) (encOpt : Option Bool) (T now t : Nat),
      0 < T → now + T < t →
      (∀ f ∈ (st.disk.lookup (sanitize (nsOpt.getD id))).getD [],
        f.base ≠ sanitize key) →
        sanitize key ∉
          listKeys (persist st id key v ⟨nsOpt, some T, encOpt⟩ now) id nsOpt t) := by
  have hmem : ∀ (α : Type) (st : FileState α) (id key : String) (v : α)
      (nsOpt : Option String) (encOpt : Option Bool) (T now : Nat), T ≠ 0 →
      memLookup (persist st id key v ⟨nsOpt, some T, encOpt⟩ now).memory
          (nsOpt.getD id) key =
        some ⟨v, now, some (now + T), encOpt.getD false, 1⟩ := by
    intro α st id key v nsOpt encOpt T now hTne
    simp [persist, hTne, memLookup_memInsert]
  refine ⟨?_, ?_, ?_⟩
  · intro α st id key v nsOpt encOpt T now t d hT hlt
    have hnx : isExpiredAt t (⟨v, now, some (now + T), encOpt.getD false, 1⟩ :
        StateEntry α) = false := by
      simp [isExpiredAt]
      omega
    simp [restore, hmem α st id key v nsOpt encOpt T now (Nat.pos_iff_ne_zero.mp hT), hnx]
  · intro α st id key v nsOpt encOpt T now t d hT hgt
    have hx : isExpiredAt t (⟨v, now, some (now + T), encOpt.getD false, 1⟩ :
        StateEntry α) = true := by
      simp [isExpiredAt]
      omega
    simp [restore, hmem α st id key v nsOpt encOpt T now (Nat.pos_iff_ne_zero.mp hT), hx]
  · intro α st id key v nsOpt encOpt T now t hT hgt hclean
    have hTne : T ≠ 0 := Nat.pos_iff_ne_zero.mp hT
    intro hin
    set files := (st.disk.lookup (sanitize (nsOpt.getD id))).getD [] with hfiles
    set ext0 := (if (encOpt.getD false) && st.hasCrypto then FileExt.enc
      else FileExt.json) with hext
    set e0 : StateEntry α := ⟨v, now, some (now + T), encOpt.getD false, 1⟩ with he0
    set f0 : DiskFile α := ⟨sanitize key, ext0, e0⟩ with hf0
    have hany : files.any (fun f => f.base = sanitize key && f.ext = ext0) = false := by
      apply List.any_eq_false.mpr
      intro f hf
      simp [hclean f hf]
    have hdisk : (persist st id key v ⟨nsOpt, some T, encOpt⟩ now).disk =
        setAssoc st.disk (sanitize (nsOpt.getD id)) (files ++ [f0]) := by
      show setAssoc st.disk (sanitize (nsOpt.getD id))
          (writeFile files (sanitize key) ext0
            ⟨v, now, if T = 0 then none else some (now + T), encOpt.getD false, 1⟩) =
        setAssoc st.disk (sanitize (nsOpt.getD id)) (files ++ [f0])
      rw [if_neg hTne, writeFile_fresh files (sanitize key) ext0 e0 hany]
    have hlookup : (persist st id key v ⟨nsOpt, some T, encOpt⟩ now).disk.lookup
        (sanitize (nsOpt.getD id)) = some (files ++ [f0]) := by
      rw [hdisk]
      exact lookup_setAssoc_self _ _ _
    have hlk : listKeys (persist st id key v ⟨nsOpt, some T, encOpt⟩ now) id nsOpt t =
        (files ++ [f0]).foldl (listStep (files ++ [f0]) t) [] := by
      unfold listKeys
      rw [hlookup]
    rw [hlk, mem_listKeys_go] at hin
    rcases hin with hin | ⟨f, hf, hbase, e, hload, hexp⟩
    · exact absurd hin (List.not_mem_nil _)
    · rcases List.mem_append.mp hf with hf | hf
      · exact hclean f hf hbase
      · obtain rfl := List.mem_singleton.mp hf
        have hsan : sanitize f0.base = f0.base := by
          show sanitize (sanitize key) = sanitize key
          exact sanitize_idem key
        rw [hsan] at hload
        have hfresh : loadFile (files ++ [f0]) f0.base = some f0.entry :=
          loadFile_append_fresh files f0 (fun g hg => hclean g hg)
        rw [hfresh] at hload
        obtain rfl := Option.some.inj hload
        have hxp : isExpiredAt t f0.entry = true := by
          show isExpiredAt t (⟨v, now, some (now + T), encOpt.getD false, 1⟩ :
            StateEntry α) = true
          simp [isExpiredAt]
          omega
        rw [hxp] at hexp
        exact absurd hexp (by simp)

/-- Witness for C7 (amended): `persist` at time 10 with `ttl = 5` restores
the value at 12, the default at 20, and the key is absent from `listKeys`
at 20. -/
theorem c7_ttl_expiry_witness :
    (restore (persist (emptyStore Nat) "a" "k" 1 ⟨none, some 5, none⟩ 10)
      "a" "k" (some 0) none 12).2 = some 1 ∧
    (restore (persist (emptyStore Nat) "a" "k" 1 ⟨none, some 5, none⟩ 10)
      "a" "k" (some 0) none 20).2 = some 0 ∧
    sanitize "k" ∉
      listKeys (persist (emptyStore Nat) "a" "k" 1 ⟨none, some 5, none⟩ 10)
        "a" none 20 :=
  ⟨c7_ttl_expiry.1 Nat (emptyStore Nat) "a" "k" 1 none none 5 10 12 (some 0)
     (by decide) (by decide),
   c7_ttl_expiry.2.1 Nat (emptyStore Nat) "a" "k" 1 none none 5 10 20 (some 0)
     (by decide) (by decide),
   c7_ttl_expiry.2.2 Nat (emptyStore Nat) "a" "k" 1 none none 5 10 20
     (by decide) (by decide) (by decide)⟩

/-- C8.  Every storage operation of the facade raises
`PermissionDenied(tag)` exactly when its required tag is absent from the
granted set and delegates to the state store exactly when it is present;
in particular a facade granted only `["storage:read"]` has `persist` raise
`PermissionDenied("storage:write")` while `restore` succeeds, returning
the supplied default on a missing key. -/
theorem c8_permission_gating :
    (∀ (perms : List String) (tag : String),
      (requirePermission perms tag = .error (.permissionDenied tag) ↔
        hasPermission perms tag = false) ∧
      (requirePermission perms tag = .ok () ↔ hasPermission perms tag = true)) ∧
    (∀ (α : Type) (perms : List String) (st : FileState α) (appId key : String)
        (v : α) (opts : PersistOpts) (now : Nat),
      (hasPermission perms "storage:write" = false →
        apiPersist perms st appId key v opts now =
          .error (.permissionDenied "storage:write")) ∧
      (hasPermission perms "storage:write" = true →
        apiPersist perms st appId key v opts now =
          .ok (persist st appId key v opts now))) ∧
    (∀ (α : Type) (perms : List String) (st : FileState α) (appId key : String)
        (d : Option α) (now : Nat),
      (hasPermission perms "storage:read" = false →
        apiRestore perms st appId key d now =
          .error (.permissionDenied "storage:read")) ∧
      (hasPermission perms "storage:read" = true →
        apiRestore perms st appId key d now =
          .ok (restore st appId key d none now))) ∧
    (∀ (α : Type) (perms : List String) (st : FileState α) (appId key : String),
      (hasPermission perms "storage:delete" = false →
        apiRemove perms st appId key =
          .error (.permissionDenied "storage:delete")) ∧
      (hasPermission perms "storage:delete" = true →
        apiRemove perms st appId key = .ok (removeKey st appId key none))) ∧
    (∀ (α : Type) (perms : List String) (st : FileState α) (appId : String)
        (now : Nat),
      (hasPermission perms "storage:read" = false →
        apiListKeys perms st appId now =
          .error (.permissionDenied "storage:read")) ∧
      (hasPermission perms "storage:read" = true →
        apiListKeys perms st appId now = .ok (listKeys st appId none now))) ∧
    (∀ (α : Type) (st : FileState α) (appId key : String) (v : α)
        (opts : PersistOpts) (now : Nat),
      apiPersist ["storage:read"] st appId key v opts now =
        .error (.permissionDenied "storage:write")) ∧
    (∀ (d : Option Nat) (now : Nat),
      apiRestore ["storage:read"] (emptyStore Nat) "app" "k" d now =
        .ok (emptyStore Nat, d)) := by
  have hreq : ∀ (perms : List String) (tag : String),
      (requirePermission perms tag = .error (.permissionDenied tag) ↔
        hasPermission perms tag = false) ∧
      (requirePermission perms tag = .ok () ↔ hasPermission perms tag = true) := by
    intro perms tag
    unfold requirePermission
    by_cases h : hasPermission perms tag = true
    · rw [if_pos h]
      simp [h]
    · rw [if_neg h]
      simp only [Bool.not_eq_true] at h
      simp [h]
  refine ⟨hreq, ?_, ?_, ?_, ?_, ?_, ?_⟩
  · intro α perms st appId key v opts now
    constructor
    · intro h
      unfold apiPersist
      rw [((hreq perms "storage:write").1.mpr h : _)]
      rfl
    · intro h
      unfold apiPersist
      rw [((hreq perms "storage:write").2.mpr h : _)]
      rfl
  · intro α perms st appId key d now
    constructor
    · intro h
      unfold apiRestore
      rw [((hreq perms "storage:read").1.mpr h : _)]
      rfl
    · intro h
      unfold apiRestore
      rw [((hreq perms "storage:read").2.mpr h : _)]
      rfl
  · intro α perms st appId key
    constructor
    · intro h
      unfold apiRemove
      rw [((hreq perms "storage:delete").1.mpr h : _)]
      rfl
    · intro h
      unfold apiRemove
      rw [((hreq perms "storage:delete").2.mpr h : _)]
      rfl
  · intro α perms st appId now
    constructor
    · intro h
      unfold apiListKeys
      rw [((hreq perms "storage:read").1.mpr h : _)]
      rfl
    · intro h
      unfold apiListKeys
      rw [((hreq perms "storage:read").2.mpr h : _)]
      rfl
  · intro α st appId key v opts now
    unfold apiPersist
    rw [((hreq ["storage:read"] "storage:write").1.mpr (by decide) : _)]
    rfl
  · intro d now
    unfold apiRestore
    rw [((hreq ["storage:read"] "storage:read").2.mpr (by decide) : _)]
    rfl

/-- Witness for C8: against a store holding nothing, a facade granted only
`storage:read` is denied `persist` with `PermissionDenied(storage:write)`
and restores the default `some 7` on the missing key `"k"`. -/
theorem c8_permission_gating_witness :
    apiPersist ["storage:read"] (emptyStore Nat) "app" "k" 3 ⟨none, none, none⟩ 5 =
      .error (.permissionDenied "storage:write") ∧
    apiRestore ["storage:read"] (emptyStore Nat) "app" "k" (some 7) 5 =
      .ok (emptyStore Nat, some 7) :=
  ⟨(c8_permission_gating.2.1 Nat ["storage:read"] (emptyStore Nat) "app" "k" 3
      ⟨none, none, none⟩ 5).1 (by decide),
   c8_permission_gating.2.2.2.2.2.2 (some 7) 5⟩

end Snapper
